import Mathlib

/-!
Shallow embedding of the core state machines of the ReactNativeSample
storefront repository:

* the Session/Credential Store (`contexts/AuthContext`: `login`, `signup`,
  `logout`, `loadUser` over the AsyncStorage keys `credentials` and `user`),
* the login-screen attempt limiter (`app/(auth)/login.tsx`: `handleLogin`,
  the one-second countdown effect, and input sanitization), and
* the checkout state machine (`components/PaymentModal.tsx`: step
  transitions, validators, formatters, and the order-id generator).

Storage cells are modelled as typed `Option` values (records written by the
code itself are always well-formed JSON); `loadUser` is additionally
modelled against raw read/parse outcomes because its claim is about
malformed data.  JavaScript string truthiness (`s` is falsy iff `s = ""`)
is modelled by emptiness tests.
-/

namespace ReactNativeSample

/-- The stored account record (AsyncStorage key `credentials`):
`{ email, password, name }`, written by `signup`. -/
structure Cred where
  email : String
  password : String
  name : String
  deriving DecidableEq

/-- The session identity (`User` in `AuthContext`): `{ id, email, name }`. -/
structure SessionUser where
  id : String
  email : String
  name : String
  deriving DecidableEq

/-- The observable state of the Session/Credential Store: the two
AsyncStorage cells (`credentials` and `user`) and the in-memory React
`user` state. -/
structure AuthState where
  credentials : Option Cred
  userKey : Option SessionUser
  memUser : Option SessionUser
  deriving DecidableEq

/-- `email.split("@")[0]` — the local part used as a default display
name: everything before the first `'@'` (the whole string when no `'@'`
occurs). -/
def localPart (email : String) : String :=
  ⟨email.data.takeWhile (fun c => !(c == '@'))⟩

/-- `login` from `AuthContext`: reads the `credentials` cell; on an exact
(case-sensitive) email and password match it sets the in-memory user to
`{ id: "1", email, name: parsed.name || email.split("@")[0] }` and returns
true; otherwise returns false.  It performs no `AsyncStorage.setItem`. -/
def login (s : AuthState) (email password : String) : Bool × AuthState :=
  match s.credentials with
  | none => (false, s)
  | some c =>
    if c.email == email && c.password == password then
      let u : SessionUser :=
        { id := "1", email := email
          name := if c.name = "" then localPart email else c.name }
      (true, { s with memUser := some u })
    else
      (false, s)

/-- `signup` from `AuthContext`: the duplicate check reads the `user`
cell (not `credentials`); on a non-duplicate it overwrites the
`credentials` cell with `{ email, password, name }` and sets the in-memory
user, returning true.  The `user` cell itself is never written. -/
def signup (s : AuthState) (email password name : String) : Bool × AuthState :=
  let duplicate : Bool :=
    match s.userKey with
    | some u => u.email == email
    | none => false
  if duplicate then
    (false, s)
  else
    (true,
      { s with
        credentials := some { email := email, password := password, name := name }
        memUser := some { id := "1", email := email, name := name } })

/-- `logout` from `AuthContext`: clears the in-memory user and removes the
persisted `user` cell. -/
def logout (s : AuthState) : AuthState :=
  { s with memUser := none, userKey := none }

/-- Outcome of the raw `AsyncStorage.getItem("user")` read performed by
`loadUser`: an I/O error (rejected promise), a missing key (null), or a
raw string value. -/
inductive ReadResult where
  | ioError : ReadResult
  | missing : ReadResult
  | found : String → ReadResult
  deriving DecidableEq

/-- `loadUser` from `AuthContext` (the startup session restore).  `parse`
models `JSON.parse` on the stored string, `none` standing for a thrown
parse error.  The result is the restored in-memory user together with the
final `isLoading` flag: every failure path is caught, leaving the user
logged out, and the `finally` block always clears the loading flag. -/
def loadUser (read : ReadResult) (parse : String → Option SessionUser) :
    Option SessionUser × Bool :=
  match read with
  | .ioError => (none, false)
  | .missing => (none, false)
  | .found s =>
    match parse s with
    | none => (none, false)
    | some u => (some u, false)

/-- JavaScript `String.prototype.trim`: drop whitespace from both ends. -/
def jsTrim (s : String) : String :=
  ⟨((s.data.dropWhile Char.isWhitespace).reverse.dropWhile
      Char.isWhitespace).reverse⟩

/-- JavaScript `String.prototype.toLowerCase`, character-wise. -/
def jsToLower (s : String) : String :=
  ⟨s.data.map Char.toLower⟩

/-- Login-screen input sanitization (`handleLogin` in `login.tsx`):
`email.trim().toLowerCase()` and `password.replace(/[<>]/g, '')`. -/
def sanitizeLoginInputs (email password : String) : String × String :=
  (jsToLower (jsTrim email),
    ⟨password.data.filter (fun c => !(c == '<' || c == '>'))⟩)

/-! ### Login attempt limiter (`app/(auth)/login.tsx`) -/

/-- `MAX_ATTEMPTS = 5`. -/
def MAX_ATTEMPTS : Nat := 5

/-- `BLOCK_DURATION = 15 * 60 * 1000` milliseconds. -/
def BLOCK_DURATION : Nat := 15 * 60 * 1000

/-- The limiter's component state: `attemptCount`, `isBlocked`,
`blockTimeRemaining` (milliseconds). -/
structure LimiterState where
  attemptCount : Nat
  isBlocked : Bool
  blockTimeRemaining : Nat
  deriving DecidableEq

/-- What a single `handleLogin` call reported to the user. -/
inductive LoginOutcome where
  | blockedAlert : Nat → LoginOutcome
  | invalidForm : LoginOutcome
  | success : LoginOutcome
  | failure : Nat → LoginOutcome
  | lockedNow : LoginOutcome
  deriving DecidableEq

/-- Result of one `handleLogin` call: the new limiter state, whether the
Session/Credential Store's `login` was invoked, and the user-visible
outcome. -/
structure HandleLoginResult where
  state : LimiterState
  storeCalled : Bool
  outcome : LoginOutcome
  deriving DecidableEq

/-- `handleLogin` from `login.tsx`.  `formValid` is the result of
`validateForm()`, `storeSuccess` the boolean the store's `login` would
return.  While blocked it alerts `Math.ceil(blockTimeRemaining / 60000)`
minutes and returns before calling the store; otherwise a success resets
the count, a failure increments it, and the attempt that reaches
`MAX_ATTEMPTS` sets the 15-minute lockout. -/
def handleLogin (s : LimiterState) (formValid storeSuccess : Bool) :
    HandleLoginResult :=
  if s.isBlocked then
    ⟨s, false, .blockedAlert ((s.blockTimeRemaining + 59999) / 60000)⟩
  else if !formValid then
    ⟨s, false, .invalidForm⟩
  else if storeSuccess then
    ⟨{ s with attemptCount := 0 }, true, .success⟩
  else
    let newAttemptCount := s.attemptCount + 1
    if MAX_ATTEMPTS ≤ newAttemptCount then
      ⟨⟨newAttemptCount, true, BLOCK_DURATION⟩, true, .lockedNow⟩
    else
      ⟨{ s with attemptCount := newAttemptCount }, true,
        .failure (MAX_ATTEMPTS - newAttemptCount)⟩

/-- One firing of the 1-second countdown interval (`useEffect` in
`login.tsx`): active only while `isBlocked && blockTimeRemaining > 0`;
when the remaining time is down to `≤ 1000` ms it unblocks and resets the
count, otherwise it decrements the remaining time by 1000 ms. -/
def tick (s : LimiterState) : LimiterState :=
  if s.isBlocked && decide (0 < s.blockTimeRemaining) then
    if s.blockTimeRemaining ≤ 1000 then
      ⟨0, false, 0⟩
    else
      { s with blockTimeRemaining := s.blockTimeRemaining - 1000 }
  else
    s

/-- The limiter state a fresh login screen starts in. -/
def limiterInit : LimiterState := ⟨0, false, 0⟩

/-- One failed attempt with a valid form (store answered false). -/
def failStep (s : LimiterState) : LimiterState :=
  (handleLogin s true false).state

/-! ### Checkout state machine (`components/PaymentModal.tsx`) -/

/-- `formatCardNumber`'s grouping pass: the global regex
`/(\d{4})(?=\d)/g → '$1 '` on an all-digit character list inserts one
space after every complete group of four digits that is followed by at
least one more digit. -/
def groupFour : List Char → List Char
  | a :: b :: c :: d :: rest =>
    if rest.isEmpty then [a, b, c, d]
    else a :: b :: c :: d :: ' ' :: groupFour rest
  | l => l

/-- `formatCardNumber` from `PaymentModal.tsx`: strip non-digits
(`replace(/\D/g, '')`), then group by four. -/
def formatCardNumber (text : String) : String :=
  ⟨groupFour (text.data.filter Char.isDigit)⟩

/-- The card-number `TextInput` renders with `maxLength={19}`: the
displayed value holds at most 19 characters. -/
def displayedCardNumber (text : String) : String :=
  ⟨(formatCardNumber text).data.take 19⟩

/-- `formatExpiryDate` from `PaymentModal.tsx`: strip non-digits; with two
or more digits present, render `MM` + `/` + up to two more digits,
otherwise return the digits unchanged. -/
def formatExpiryDate (text : String) : String :=
  let cleaned : List Char := text.data.filter Char.isDigit
  if 2 ≤ cleaned.length then
    ⟨cleaned.take 2 ++ '/' :: (cleaned.drop 2).take 2⟩
  else
    ⟨cleaned⟩

/-- The checkout step (`currentStep` in `PaymentModal.tsx`). -/
inductive Step where
  | details : Step
  | payment : Step
  | processing : Step
  | success : Step
  deriving DecidableEq

/-- The payment method selector. -/
inductive PayMethod where
  | card : PayMethod
  | upi : PayMethod
  | wallet : PayMethod
  deriving DecidableEq

/-- The `formData` record of the modal: six shipping fields and four card
fields. -/
structure FormData where
  fullName : String
  email : String
  phone : String
  address : String
  city : String
  zipCode : String
  cardNumber : String
  expiryDate : String
  cvv : String
  cardName : String
  deriving DecidableEq

/-- The all-blank `formData`. -/
def blankForm : FormData :=
  ⟨"", "", "", "", "", "", "", "", "", ""⟩

/-- The modal's component state, together with the (never-cancelled)
`setTimeout` scheduled by `handlePayment`: `timer = some t` means a
payment-processing timeout was scheduled at millisecond `t` and has not
fired yet. -/
structure ModalState where
  currentStep : Step
  quantity : Nat
  paymentMethod : PayMethod
  isProcessing : Bool
  formData : FormData
  timer : Option Nat
  deriving DecidableEq

/-- The state a freshly mounted `PaymentModal` starts in. -/
def modalInit : ModalState :=
  ⟨.details, 1, .card, false, blankForm, none⟩

/-- `isDetailsValid()`: all six shipping fields truthy (non-empty). -/
def isDetailsValid (f : FormData) : Bool :=
  !f.fullName.isEmpty && !f.email.isEmpty && !f.phone.isEmpty &&
    !f.address.isEmpty && !f.city.isEmpty && !f.zipCode.isEmpty

/-- `isPaymentValid()`: with `card` selected all four card fields must be
truthy; `upi` and `wallet` always validate. -/
def isPaymentValid (s : ModalState) : Bool :=
  match s.paymentMethod with
  | .card =>
    !s.formData.cardNumber.isEmpty && !s.formData.expiryDate.isEmpty &&
      !s.formData.cvv.isEmpty && !s.formData.cardName.isEmpty
  | .upi => true
  | .wallet => true

/-- The six shipping-field inputs rendered in the `details` step. -/
inductive ShipField where
  | fullName | email | phone | address | city | zipCode
  deriving DecidableEq

/-- The four card-field inputs rendered in the `payment` step (card
method). -/
inductive CardField where
  | cardNumber | expiryDate | cvv | cardName
  deriving DecidableEq

/-- Write one shipping field. -/
def setShip (f : FormData) (field : ShipField) (v : String) : FormData :=
  match field with
  | .fullName => { f with fullName := v }
  | .email => { f with email := v }
  | .phone => { f with phone := v }
  | .address => { f with address := v }
  | .city => { f with city := v }
  | .zipCode => { f with zipCode := v }

/-- Write one card field, applying the `onChangeText` formatter the
corresponding `TextInput` uses. -/
def setCard (f : FormData) (field : CardField) (v : String) : FormData :=
  match field with
  | .cardNumber => { f with cardNumber := formatCardNumber v }
  | .expiryDate => { f with expiryDate := formatExpiryDate v }
  | .cvv => { f with cvv := v }
  | .cardName => { f with cardName := v }

/-- The user/timer events the mounted modal can receive.  Times are in
epoch milliseconds.  `fire now` is the `setTimeout` callback scheduled by
`handlePayment`; `closeReset` is `resetAndClose` (header close button,
`onRequestClose`, or the success-step footer button).  `resetAndClose`
calls `onClose`, and the parent (`product/[id].tsx`) renders the modal
conditionally (`showPaymentModal && <PaymentModal/>`), so closing unmounts
the component: its state is discarded, a pending timeout is orphaned (its
`setState` on the unmounted component has no observable effect), and the
next opening mounts a fresh instance in the initial state. -/
inductive Event where
  | editShip : ShipField → String → Event
  | editCard : CardField → String → Event
  | selectMethod : PayMethod → Event
  | continueToPayment : Event
  | pay : Nat → Event
  | fire : Nat → Event
  | closeReset : Event
  deriving DecidableEq

/-- One step of the modal.  Each event is a no-op unless the control that
produces it is rendered and enabled in the current state; `fire now`
applies only when a timeout is pending and at least 2500 ms have passed
since it was scheduled.  `closeReset` tears the session down (unmount):
the observable continuation is a fresh modal in the initial state. -/
def applyEvent (s : ModalState) (e : Event) : ModalState :=
  match e with
  | .editShip field v =>
    if s.currentStep = .details then
      { s with formData := setShip s.formData field v }
    else s
  | .editCard field v =>
    if s.currentStep = .payment ∧ s.paymentMethod = .card then
      { s with formData := setCard s.formData field v }
    else s
  | .selectMethod m =>
    if s.currentStep = .payment then { s with paymentMethod := m } else s
  | .continueToPayment =>
    if s.currentStep = .details ∧ isDetailsValid s.formData then
      { s with currentStep := .payment }
    else s
  | .pay now =>
    if s.currentStep = .payment ∧ isPaymentValid s then
      { s with currentStep := .processing, isProcessing := true, timer := some now }
    else s
  | .fire now =>
    match s.timer with
    | some t =>
      if t + 2500 ≤ now then
        { s with currentStep := .success, isProcessing := false, timer := none }
      else s
    | none => s
  | .closeReset => modalInit

/-- Run a list of events from a state. -/
def runEvents (s : ModalState) : List Event → ModalState
  | [] => s
  | e :: es => runEvents (applyEvent s e) es

/-- The order identifier rendered in the `success` step:
`"ORD" + Date.now().toString().slice(-6)` (the surrounding text adds the
`#`). -/
def orderId (now : Nat) : String :=
  let s : List Char := (Nat.repr now).data
  "ORD" ++ ⟨s.drop (s.length - 6)⟩

/-- Spec-side: split a character list into consecutive groups of four. -/
def chunksOfFour : List Char → List (List Char)
  | [] => []
  | a :: b :: c :: d :: rest => [a, b, c, d] :: chunksOfFour rest
  | l => [l]

/-- Spec-side: join groups with a single separating space (so no trailing
space after a complete final group). -/
def joinSpace : List (List Char) → List Char
  | [] => []
  | [g] => g
  | g :: gs => g ++ ' ' :: joinSpace gs

/-- Modelled from the spec's words for card formatting: strip all
non-digit characters, then join the groups of four digits with single
spaces. -/
def specCardFormat (text : String) : String :=
  ⟨joinSpace (chunksOfFour (text.data.filter Char.isDigit))⟩

/-- The inductive invariant of the checkout machine: a state in the
`payment` step has valid shipping details, a state in the `processing`
step validates its payment method, and a pending payment timeout exists
only in the `processing` step. -/
def checkoutInv (s : ModalState) : Prop :=
  (s.currentStep = .payment → isDetailsValid s.formData = true) ∧
  (s.currentStep = .processing → isPaymentValid s = true) ∧
  (∀ t, s.timer = some t → s.currentStep = .processing)

/-! ## Theorems -/

/-- **C3**: for any stored Credential Record `{e, p, n}`, `login(e, p)`
returns true and yields a Session User with id "1", email `e` and name
`n` (or the local part of `e` when `n` is empty), while `login(e, p')`
with `p' ≠ p` returns false. -/
theorem login_correct (s : AuthState) (c : Cred)
    (hc : s.credentials = some c) :
    (login s c.email c.password).1 = true ∧
    (login s c.email c.password).2.memUser =
      some { id := "1", email := c.email
             name := if c.name = "" then localPart c.email else c.name } ∧
    (∀ p', p' ≠ c.password → (login s c.email p').1 = false) := by
  refine ⟨?_, ?_, ?_⟩
  · simp [login, hc]
  · simp [login, hc]
  · intro p' hp
    have hne : ¬(c.password = p') := fun h => hp h.symm
    simp [login, hc, hne]

/-- Witness for `login_correct` at a concrete store state. -/
theorem login_correct_witness :
    (login ⟨some ⟨"a@b.com", "pw", ""⟩, none, none⟩ "a@b.com" "pw").1 = true ∧
    (login ⟨some ⟨"a@b.com", "pw", ""⟩, none, none⟩ "a@b.com" "pw").2.memUser =
      some { id := "1", email := "a@b.com", name := "a" } ∧
    (login ⟨some ⟨"a@b.com", "pw", ""⟩, none, none⟩ "a@b.com" "wrong").1 = false := by
  have h := login_correct ⟨some ⟨"a@b.com", "pw", ""⟩, none, none⟩
    ⟨"a@b.com", "pw", ""⟩ rfl
  exact ⟨h.1, by simpa using h.2.1, h.2.2 "wrong" (by decide)⟩

/-- **C1** (code evaluation at the failing input): with a Credential
Record stored under `credentials` and no `user` entry, `signup` with the
very same email succeeds and overwrites the stored record — the duplicate
check reads the (never-written) `user` key instead of `credentials`. -/
theorem signup_overwrites_existing_credentials :
    (signup ⟨some ⟨"a@b.com", "pw", "Ann"⟩, none, none⟩ "a@b.com" "x" "Bob").1
      = true ∧
    (signup ⟨some ⟨"a@b.com", "pw", "Ann"⟩, none, none⟩ "a@b.com" "x" "Bob").2.credentials
      = some ⟨"a@b.com", "x", "Bob"⟩ := by
  decide

/-- **C2** (code evaluation at the failing input): both a successful
`login` and a successful `signup` leave the persisted `user` key absent —
neither operation performs an `AsyncStorage.setItem("user", ...)`, even
though `loadUser` reads that key, `logout` removes it, and `signup`'s
duplicate check consults it. -/
theorem login_signup_never_write_user_key :
    (login ⟨some ⟨"a@b.com", "pw", "Ann"⟩, none, none⟩ "a@b.com" "pw").1 = true ∧
    (login ⟨some ⟨"a@b.com", "pw", "Ann"⟩, none, none⟩ "a@b.com" "pw").2.userKey
      = none ∧
    (signup ⟨none, none, none⟩ "b@c.com" "pw2" "Bea").1 = true ∧
    (signup ⟨none, none, none⟩ "b@c.com" "pw2" "Bea").2.userKey = none := by
  decide

/-- **C9**: the startup session restore never propagates an error: the
loading flag ends false on every path, and every failure (storage read
error, missing key, malformed stored JSON) yields the logged-out state. -/
theorem loadUser_fails_open (read : ReadResult)
    (parse : String → Option SessionUser) :
    (loadUser read parse).2 = false ∧
    (read = .ioError → (loadUser read parse).1 = none) ∧
    (read = .missing → (loadUser read parse).1 = none) ∧
    (∀ s, read = .found s → parse s = none → (loadUser read parse).1 = none) := by
  refine ⟨?_, ?_, ?_, ?_⟩
  · cases read with
    | found s => cases h : parse s <;> simp [loadUser, h]
    | ioError => simp [loadUser]
    | missing => simp [loadUser]
  · intro h; subst h; simp [loadUser]
  · intro h; subst h; simp [loadUser]
  · intro s h hp; subst h; simp [loadUser, hp]

/-- Witness for `loadUser_fails_open` on a malformed stored value. -/
theorem loadUser_fails_open_witness :
    (loadUser (.found "garbage") (fun _ => none)).2 = false ∧
    (loadUser (.found "garbage") (fun _ => none)).1 = none := by
  have h := loadUser_fails_open (.found "garbage") (fun _ => none)
  exact ⟨h.1, h.2.2.2 "garbage" rfl rfl⟩

/-- **C10**: the login screen forwards `password.replace(/[<>]/g, '')` and
`email.trim().toLowerCase()` to the store, so the forwarded password never
contains `'<'` or `'>'`; consequently a stored credential whose password
contains either character can never be matched from this screen. -/
theorem handleLogin_sanitization (typedEmail typedPassword : String)
    (s : AuthState) (c : Cred) :
    ((sanitizeLoginInputs typedEmail typedPassword).2.data =
      typedPassword.data.filter (fun ch => !(ch == '<' || ch == '>'))) ∧
    (∀ ch ∈ (sanitizeLoginInputs typedEmail typedPassword).2.data,
      ch ≠ '<' ∧ ch ≠ '>') ∧
    ((sanitizeLoginInputs typedEmail typedPassword).1 =
      jsToLower (jsTrim typedEmail)) ∧
    (s.credentials = some c →
      ('<' ∈ c.password.data ∨ '>' ∈ c.password.data) →
      (login s (sanitizeLoginInputs typedEmail typedPassword).1
        (sanitizeLoginInputs typedEmail typedPassword).2).1 = false) := by
  refine ⟨rfl, ?_, rfl, ?_⟩
  · intro ch hch
    have hmem := List.mem_filter.mp hch
    have hpred := hmem.2
    constructor <;> · rintro rfl; simp at hpred
  · intro hc hmem
    simp only [login, hc]
    split
    case isTrue h =>
      exfalso
      rw [Bool.and_eq_true] at h
      have hpw : c.password = (sanitizeLoginInputs typedEmail typedPassword).2 :=
        eq_of_beq h.2
      rcases hmem with hm | hm <;>
      · rw [hpw] at hm
        have hmem2 := List.mem_filter.mp hm
        simp at hmem2
    case isFalse h => rfl

/-- Witness for `handleLogin_sanitization`: a stored password containing
`'<'` is not matched even when typed exactly. -/
theorem handleLogin_sanitization_witness :
    ('<' : Char) ∈ ("p<w" : String).data ∧
    (login ⟨some ⟨"a@b.com", "p<w", "Ann"⟩, none, none⟩
      (sanitizeLoginInputs "a@b.com" "p<w").1
      (sanitizeLoginInputs "a@b.com" "p<w").2).1 = false := by
  refine ⟨by decide, ?_⟩
  exact (handleLogin_sanitization "a@b.com" "p<w"
    ⟨some ⟨"a@b.com", "p<w", "Ann"⟩, none, none⟩ ⟨"a@b.com", "p<w", "Ann"⟩).2.2.2
    rfl (Or.inl (by decide))

/-- **C5**: from the open limiter with count 0, the k-th consecutive
failure (k ≤ 4) leaves the limiter open with count k; the 5th failure
itself transitions it to blocked with a 15-minute lockout and raises the
locked alert (the attempt after that only raises the already-blocked
alert); any successful attempt from an open state resets the count to 0. -/
theorem lockout_threshold :
    (∀ k, k ≤ 4 → failStep^[k] limiterInit = ⟨k, false, 0⟩) ∧
    failStep^[5] limiterInit = ⟨5, true, 15 * 60 * 1000⟩ ∧
    (handleLogin (failStep^[4] limiterInit) true false).outcome = .lockedNow ∧
    (handleLogin (failStep^[5] limiterInit) true false).outcome ≠ .lockedNow ∧
    (∀ s, s.isBlocked = false →
      (handleLogin s true true).state.attemptCount = 0) := by
  refine ⟨?_, by decide, by decide, by decide, ?_⟩
  · intro k hk
    interval_cases k <;> decide
  · intro s hs
    simp [handleLogin, hs]

/-- Witness for `lockout_threshold` at concrete inputs. -/
theorem lockout_threshold_witness :
    failStep^[3] limiterInit = ⟨3, false, 0⟩ ∧
    (handleLogin ⟨2, false, 0⟩ true true).state.attemptCount = 0 :=
  ⟨lockout_threshold.1 3 (by decide), lockout_threshold.2.2.2.2 ⟨2, false, 0⟩ rfl⟩

/-- While the lockout is counting down, each 1-second interval firing
decrements the remaining time by 1000 ms; after exactly `m + 1` firings
from `1000 * (m + 1)` ms remaining, the limiter is open with count 0. -/
theorem tick_countdown (m c : Nat) :
    tick^[m + 1] ⟨c, true, 1000 * (m + 1)⟩ = ⟨0, false, 0⟩ := by
  induction m with
  | zero => simp [tick]
  | succ m ih =>
    rw [Function.iterate_succ_apply]
    have hpos : 0 < 1000 * (m + 1 + 1) := by positivity
    have hgt : ¬(1000 * (m + 1 + 1) ≤ 1000) := by omega
    have hstep : tick ⟨c, true, 1000 * (m + 1 + 1)⟩ =
        ⟨c, true, 1000 * (m + 1)⟩ := by
      have harith : 1000 * (m + 1 + 1) - 1000 = 1000 * (m + 1) := by omega
      simp [tick, hpos, hgt, harith]
    rw [hstep, ih]

/-- **C6**: while blocked, `handleLogin` rejects the attempt without
consulting the store, leaving the limiter unchanged and reporting the
remaining time rounded up to whole minutes (`Math.ceil(ms / 60000)`, the
least number of minutes covering the remaining milliseconds); after at
least 900 one-second countdown firings (≥ 15 minutes) from a fresh
15-minute lockout, the limiter is open with count 0, and the next attempt
is evaluated normally (the store is consulted; a success resets the
count). -/
theorem lockout_expiry :
    (∀ s v r, s.isBlocked = true →
      handleLogin s v r =
        ⟨s, false, .blockedAlert ((s.blockTimeRemaining + 59999) / 60000)⟩) ∧
    (∀ b : Nat, b ≤ 60000 * ((b + 59999) / 60000) ∧
      ∀ m, b ≤ 60000 * m → (b + 59999) / 60000 ≤ m) ∧
    (∀ n c, 900 ≤ n → tick^[n] ⟨c, true, BLOCK_DURATION⟩ = ⟨0, false, 0⟩) ∧
    (∀ r, (handleLogin ⟨0, false, 0⟩ true r).storeCalled = true) ∧
    (handleLogin ⟨0, false, 0⟩ true true).state.attemptCount = 0 := by
  refine ⟨?_, ?_, ?_, ?_, by decide⟩
  · intro s v r h
    simp [handleLogin, h]
  · intro b
    refine ⟨by omega, fun m hm => by omega⟩
  · intro n c h
    obtain ⟨k, rfl⟩ : ∃ k, n = k + 900 := ⟨n - 900, by omega⟩
    rw [Function.iterate_add_apply]
    have h900 : tick^[900] (⟨c, true, BLOCK_DURATION⟩ : LimiterState) =
        ⟨0, false, 0⟩ := by
      have hb : BLOCK_DURATION = 1000 * (899 + 1) := by decide
      rw [hb]
      exact tick_countdown 899 c
    rw [h900]
    exact Function.iterate_fixed (by decide) k
  · intro r
    cases r <;> decide

/-- Witness for `lockout_expiry` at concrete inputs. -/
theorem lockout_expiry_witness :
    handleLogin ⟨5, true, 900000⟩ true false =
      ⟨⟨5, true, 900000⟩, false, .blockedAlert 15⟩ ∧
    tick^[900] ⟨5, true, BLOCK_DURATION⟩ = ⟨0, false, 0⟩ ∧
    (handleLogin ⟨0, false, 0⟩ true false).storeCalled = true := by
  refine ⟨?_, ?_, ?_⟩
  · exact lockout_expiry.1 ⟨5, true, 900000⟩ true false rfl
  · exact lockout_expiry.2.2.1 900 5 (by decide)
  · exact lockout_expiry.2.2.2.1 false

/-- A non-empty list has a non-empty chunk decomposition. -/
theorem chunksOfFour_ne_nil (l : List Char) (h : l ≠ []) :
    chunksOfFour l ≠ [] := by
  rcases l with _ | ⟨a, _ | ⟨b, _ | ⟨c, _ | ⟨d, rest⟩⟩⟩⟩ <;>
    simp_all [chunksOfFour]

/-- The regex grouping pass agrees with "groups of four joined by single
spaces". -/
theorem groupFour_eq (l : List Char) :
    groupFour l = joinSpace (chunksOfFour l) := by
  induction l using groupFour.induct with
  | case1 a b c d rest hempty =>
    have hrest : rest = [] := List.isEmpty_iff.mp hempty
    subst hrest
    simp [groupFour, chunksOfFour, joinSpace]
  | case2 a b c d rest hne ih =>
    have hrest : rest ≠ [] := by
      simpa [List.isEmpty_iff] using hne
    obtain ⟨g, gs, hg⟩ : ∃ g gs, chunksOfFour rest = g :: gs := by
      rcases hc : chunksOfFour rest with _ | ⟨g, gs⟩
      · exact absurd hc (chunksOfFour_ne_nil rest hrest)
      · exact ⟨g, gs, rfl⟩
    have hne2 : rest.isEmpty = false := by
      simp [List.isEmpty_iff, hrest]
    simp only [groupFour, hne2, Bool.false_eq_true, if_false, ih,
      chunksOfFour, hg, joinSpace]
    rfl
  | case3 l h =>
    rcases l with _ | ⟨a, _ | ⟨b, _ | ⟨c, _ | ⟨d, rest⟩⟩⟩⟩ <;>
      first
      | exact (h _ _ _ _ _ rfl).elim
      | simp [groupFour, chunksOfFour, joinSpace]

/-- **C8**: `formatCardNumber` strips all non-digit characters and joins
the groups of four digits with single spaces (no trailing space after a
complete final group); the displayed value (the `TextInput` has
`maxLength={19}`) holds at most 19 characters; and
`formatCardNumber("4111111111111111") = "4111 1111 1111 1111"`. -/
theorem formatCardNumber_spec :
    (∀ s, formatCardNumber s = specCardFormat s) ∧
    (∀ s, (displayedCardNumber s).length ≤ 19) ∧
    formatCardNumber "4111111111111111" = "4111 1111 1111 1111" := by
  refine ⟨?_, ?_, by decide⟩
  · intro s
    unfold formatCardNumber specCardFormat
    rw [groupFour_eq]
  · intro s
    show (List.take 19 (formatCardNumber s).data).length ≤ 19
    exact List.length_take_le 19 (formatCardNumber s).data

/-- Decimal digit characters are digits. -/
theorem digitChar_isDigit (m : Nat) (h : m < 10) :
    (Nat.digitChar m).isDigit = true := by
  interval_cases m <;> decide

/-- Every character `Nat.toDigitsCore` emits in base 10 is a digit. -/
theorem toDigitsCore_digits :
    ∀ (fuel n : Nat) (acc : List Char), (∀ ch ∈ acc, ch.isDigit = true) →
      ∀ ch ∈ Nat.toDigitsCore 10 fuel n acc, ch.isDigit = true := by
  intro fuel
  induction fuel with
  | zero => intro n acc hacc; simpa [Nat.toDigitsCore] using hacc
  | succ fuel ih =>
    intro n acc hacc
    have hd : (Nat.digitChar (n % 10)).isDigit = true :=
      digitChar_isDigit (n % 10) (Nat.mod_lt n (by norm_num))
    have hcons : ∀ ch ∈ Nat.digitChar (n % 10) :: acc, ch.isDigit = true := by
      intro ch hch
      rcases List.mem_cons.mp hch with rfl | hch
      · exact hd
      · exact hacc ch hch
    simp only [Nat.toDigitsCore]
    split
    · exact hcons
    · exact ih (n / 10) (Nat.digitChar (n % 10) :: acc) hcons

/-- `Nat.toDigitsCore` never shortens its accumulator. -/
theorem toDigitsCore_len_mono :
    ∀ (fuel n : Nat) (acc : List Char),
      acc.length ≤ (Nat.toDigitsCore 10 fuel n acc).length := by
  intro fuel
  induction fuel with
  | zero => intro n acc; simp [Nat.toDigitsCore]
  | succ fuel ih =>
    intro n acc
    simp only [Nat.toDigitsCore]
    split
    · simp
    · exact le_trans (by simp) (ih (n / 10) (Nat.digitChar (n % 10) :: acc))

/-- A number of at least `e + 1` decimal digits makes `Nat.toDigitsCore`
emit at least `e + 1` characters (given enough fuel). -/
theorem toDigitsCore_len_lower :
    ∀ (e fuel n : Nat) (acc : List Char), 10 ^ e ≤ n → n < fuel →
      acc.length + e + 1 ≤ (Nat.toDigitsCore 10 fuel n acc).length := by
  intro e
  induction e with
  | zero =>
    intro fuel n acc hpow hfuel
    cases fuel with
    | zero => omega
    | succ f =>
      simp only [Nat.toDigitsCore]
      split
      · simp
      · exact le_trans (by simp)
          (toDigitsCore_len_mono f (n / 10) (Nat.digitChar (n % 10) :: acc))
  | succ e ih =>
    intro fuel n acc hpow hfuel
    have hten : 10 ≤ n := by
      have h1 : (10 : Nat) = 10 ^ 1 := by norm_num
      have h2 : (10 : Nat) ^ 1 ≤ 10 ^ (e + 1) :=
        Nat.pow_le_pow_right (by norm_num) (by omega)
      omega
    cases fuel with
    | zero => omega
    | succ f =>
      have hdiv : 10 ^ e ≤ n / 10 := by
        rw [Nat.le_div_iff_mul_le (by norm_num)]
        calc 10 ^ e * 10 = 10 ^ (e + 1) := (pow_succ 10 e).symm
        _ ≤ n := hpow
      have hdiv0 : ¬(n / 10 = 0) := by
        have : 1 ≤ n / 10 := le_trans (Nat.one_le_pow e 10 (by norm_num)) hdiv
        omega
      have hfuel2 : n / 10 < f := by
        have h1 : n / 10 < n := Nat.div_lt_self (by omega) (by norm_num)
        omega
      simp only [Nat.toDigitsCore]
      split
      · omega
      · have := ih f (n / 10) (Nat.digitChar (n % 10) :: acc) hdiv hfuel2
        simp only [List.length_cons] at this
        omega

/-- Every character of `Nat.repr n` is a decimal digit. -/
theorem repr_data_digits (n : Nat) :
    ∀ ch ∈ (Nat.repr n).data, ch.isDigit = true := by
  intro ch hch
  exact toDigitsCore_digits (n + 1) n [] (by simp) ch hch

/-- A number of at least six decimal digits has a `Nat.repr` of at least
six characters. -/
theorem repr_len_ge_six (n : Nat) (h : 100000 ≤ n) :
    6 ≤ (Nat.repr n).data.length := by
  have h5 : 10 ^ 5 ≤ n := by norm_num; omega
  have := toDigitsCore_len_lower 5 (n + 1) n [] h5 (Nat.lt_succ_self n)
  simpa using this

/-- **C7**: for every timestamp of at least six decimal digits (every real
epoch-millisecond value), the rendered order identifier is "ORD" followed
by exactly the last 6 characters of the timestamp's decimal
representation, each of which is a digit — 9 characters in total. -/
theorem orderId_format (now : Nat) (h : 100000 ≤ now) :
    (orderId now).length = 9 ∧
    (orderId now).data =
      "ORD".data ++ (Nat.repr now).data.drop ((Nat.repr now).data.length - 6) ∧
    ((Nat.repr now).data.drop ((Nat.repr now).data.length - 6)).length = 6 ∧
    (∀ ch ∈ (Nat.repr now).data.drop ((Nat.repr now).data.length - 6),
      ch.isDigit = true) := by
  have hlen : 6 ≤ (Nat.repr now).data.length := repr_len_ge_six now h
  have hdropLen :
      ((Nat.repr now).data.drop ((Nat.repr now).data.length - 6)).length = 6 := by
    simp only [List.length_drop]
    omega
  refine ⟨?_, ?_, hdropLen, ?_⟩
  · show ((("ORD" : String) ++
      ⟨(Nat.repr now).data.drop ((Nat.repr now).data.length - 6)⟩).length) = 9
    rw [String.length_append]
    have h6 : (⟨(Nat.repr now).data.drop ((Nat.repr now).data.length - 6)⟩ :
        String).length = 6 := hdropLen
    rw [h6]
    rfl
  · show ((("ORD" : String) ++
      ⟨(Nat.repr now).data.drop ((Nat.repr now).data.length - 6)⟩).data) = _
    rw [String.data_append]
  · intro ch hch
    exact repr_data_digits now ch (List.mem_of_mem_drop hch)

/-- Witness for `orderId_format` at a concrete 13-digit timestamp. -/
theorem orderId_format_witness :
    (orderId 1760140812345).length = 9 ∧ orderId 1760140812345 = "ORD812345" :=
  ⟨(orderId_format 1760140812345 (by decide)).1, by decide⟩

/-- Every event preserves the checkout invariant. -/
theorem checkoutInv_apply (s : ModalState) (e : Event) (hs : checkoutInv s) :
    checkoutInv (applyEvent s e) := by
  obtain ⟨cs, q, pm, ip, fd, tm⟩ := s
  obtain ⟨h1, h2, h3⟩ := hs
  cases e with
  | editShip field v =>
    cases cs <;> simp_all [checkoutInv, applyEvent]
  | editCard field v =>
    cases cs <;> cases pm <;> cases field <;>
      simp_all [checkoutInv, applyEvent, setCard, isDetailsValid, isPaymentValid]
  | selectMethod m =>
    cases cs <;> cases m <;>
      simp_all [checkoutInv, applyEvent, isPaymentValid]
  | continueToPayment =>
    cases cs <;> simp only [checkoutInv, applyEvent] <;> split_ifs <;>
      simp_all
  | pay now =>
    cases cs <;> cases pm <;> simp only [checkoutInv, applyEvent] <;>
      split_ifs <;> simp_all [isPaymentValid]
  | fire now =>
    cases tm <;> simp only [checkoutInv, applyEvent] <;> (try split_ifs) <;>
      simp_all
  | closeReset =>
    simp [checkoutInv, applyEvent, modalInit]

/-- The checkout invariant holds in every reachable state of a fresh
session. -/
theorem checkoutInv_run (es : List Event) :
    checkoutInv (runEvents modalInit es) := by
  suffices h : ∀ s, checkoutInv s → checkoutInv (runEvents s es) from
    h modalInit (by simp [checkoutInv, modalInit])
  induction es with
  | nil => exact fun s hs => hs
  | cons e es ih => exact fun s hs => ih (applyEvent s e) (checkoutInv_apply s e hs)

/-- The only transition that enters the `success` step is the firing, at
least 2500 ms after it was scheduled, of the pending payment timeout —
and (given the invariant) it fires from the `processing` step. -/
theorem applyEvent_success_entry (s : ModalState) (e : Event)
    (hinv : ∀ t, s.timer = some t → s.currentStep = .processing)
    (hsucc : (applyEvent s e).currentStep = .success)
    (hne : s.currentStep ≠ .success) :
    s.currentStep = .processing ∧
    ∃ t now, e = .fire now ∧ s.timer = some t ∧ t + 2500 ≤ now := by
  obtain ⟨cs, q, pm, ip, fd, tm⟩ := s
  cases e with
  | fire now =>
    cases tm with
    | none => exact absurd hsucc hne
    | some t =>
      by_cases hle : t + 2500 ≤ now
      · exact ⟨hinv t rfl, t, now, rfl, rfl, hle⟩
      · simp only [applyEvent, if_neg hle] at hsucc
        exact absurd hsucc hne
  | editShip field v =>
    simp only [applyEvent] at hsucc
    split_ifs at hsucc <;> exact absurd hsucc hne
  | editCard field v =>
    simp only [applyEvent] at hsucc
    split_ifs at hsucc <;> exact absurd hsucc hne
  | selectMethod m =>
    simp only [applyEvent] at hsucc
    split_ifs at hsucc <;> exact absurd hsucc hne
  | continueToPayment =>
    simp only [applyEvent] at hsucc
    split_ifs at hsucc
    exact absurd hsucc hne
  | pay now =>
    simp only [applyEvent] at hsucc
    split_ifs at hsucc
    exact absurd hsucc hne
  | closeReset =>
    exact absurd hsucc (by simp [applyEvent, modalInit])

/-- **C4**: in every reachable state of a fresh Checkout Session, the
`payment` step implies all six shipping fields are non-empty, the
`processing` step implies the payment method validates (with `card`, all
four card fields non-empty), and `success` is entered only from
`processing`, by the payment timeout firing at least 2500 ms after it was
scheduled. -/
theorem checkout_linearity (es : List Event) :
    ((runEvents modalInit es).currentStep = .payment →
      isDetailsValid (runEvents modalInit es).formData = true) ∧
    ((runEvents modalInit es).currentStep = .processing →
      isPaymentValid (runEvents modalInit es) = true) ∧
    (∀ e : Event,
      (applyEvent (runEvents modalInit es) e).currentStep = .success →
      (runEvents modalInit es).currentStep ≠ .success →
      (runEvents modalInit es).currentStep = .processing ∧
      ∃ t now, e = .fire now ∧
        (runEvents modalInit es).timer = some t ∧ t + 2500 ≤ now) := by
  obtain ⟨h1, h2, h3⟩ := checkoutInv_run es
  exact ⟨h1, h2, fun e hsucc hne =>
    applyEvent_success_entry (runEvents modalInit es) e h3 hsucc hne⟩

/-- Witness for `checkout_linearity` on concrete traces: a filled
shipping form reaching `payment`, and the timeout firing from
`processing` 2500 ms after payment was submitted. -/
theorem checkout_linearity_witness :
    isDetailsValid (runEvents modalInit
      [.editShip .fullName "a", .editShip .email "a", .editShip .phone "a",
       .editShip .address "a", .editShip .city "a", .editShip .zipCode "a",
       .continueToPayment]).formData = true ∧
    ((runEvents modalInit
      [.editShip .fullName "a", .editShip .email "a", .editShip .phone "a",
       .editShip .address "a", .editShip .city "a", .editShip .zipCode "a",
       .continueToPayment, .selectMethod .upi, .pay 0]).currentStep =
        .processing ∧
      ∃ t now, Event.fire 2500 = .fire now ∧
        (runEvents modalInit
          [.editShip .fullName "a", .editShip .email "a", .editShip .phone "a",
           .editShip .address "a", .editShip .city "a", .editShip .zipCode "a",
           .continueToPayment, .selectMethod .upi, .pay 0]).timer = some t ∧
        t + 2500 ≤ now) :=
  ⟨(checkout_linearity
      [.editShip .fullName "a", .editShip .email "a", .editShip .phone "a",
       .editShip .address "a", .editShip .city "a", .editShip .zipCode "a",
       .continueToPayment]).1 (by decide),
    (checkout_linearity
      [.editShip .fullName "a", .editShip .email "a", .editShip .phone "a",
       .editShip .address "a", .editShip .city "a", .editShip .zipCode "a",
       .continueToPayment, .selectMethod .upi, .pay 0]).2.2
      (.fire 2500) (by decide) (by decide)⟩

end ReactNativeSample
